import Mathlib

/-!
Shallow embedding of the derivation core of the three-dice-game repository
(src/lib/game-utils.ts, src/lib/mappers.ts, and the round/turn query helpers),
together with theorems checking the natural-language specification against it.

Modelling conventions:
* JS numbers that are always non-negative integers here (dice faces, scores,
  ids, turn orders, sip counts) are `Nat`.
* `Date` timestamps are `Nat` ticks; a `Date` object is always truthy in JS,
  so `lastRoll?.rolledAt || new Date()` is presence-based and is modelled with
  `Option` matching, with the ambient clock (`new Date()`) passed in as an
  explicit `now : Nat` argument.
* `x | null` / possibly-`undefined` values are `Option`.
* `Array.prototype.sort((a, b) => a - b)` on numbers produces the unique
  ascending reordering, modelled by `List.insertionSort (· ≤ ·)`.
* JS indexing `values[i]` that may be out of bounds (value `undefined`) is
  modelled with `getElem?` into `Option`; `undefined === undefined` is `true`
  in JS, which `Option` equality (`none = none`) reproduces.
* The `Map.get(k) || []` lookups are functions `Nat → Option _` with `getD []`.
* `Math.random()`-driven choices are an explicit `rand : Nat → Nat` input;
  `Math.floor(Math.random() * (i + 1))` at loop index `i` becomes
  `rand i % (i + 1)`, a value in `[0, i]`.
-/

namespace ThreeDice

/-- One die of a roll: `{ value: number; kept: boolean }` from db/schema.ts. -/
structure Die where
  value : Nat
  kept : Bool
deriving DecidableEq, Repr

/-- Model of `Dice = { value: number; kept: boolean }[]` from db/schema.ts. -/
abbrev Dice := List Die

/-- The five-tag `SpecialRollType` enum from db/schema.ts. -/
inductive SpecialRollType where
  | three_of_a_kind
  | stairs
  | super_stairs
  | shit_stairs
  | none
deriving DecidableEq, Repr

/-- The `DICE_POINTS` record from game-utils.ts (defined on faces 1..6;
any other key would be `undefined` in JS, modelled as 0 and never used on
valid dice). -/
def DICE_POINTS : Nat → Nat
  | 1 => 100
  | 2 => 2
  | 3 => 3
  | 4 => 4
  | 5 => 5
  | 6 => 60
  | _ => 0

/-- Model of `calculateScore` from game-utils.ts: `dice.reduce((sum, d) => sum + DICE_POINTS[d.value], 0)`. -/
def calculateScore (dice : Dice) : Nat :=
  dice.foldl (fun sum d => sum + DICE_POINTS d.value) 0

/-- The ascending numeric sort `dice.map((d) => d.value).sort((a, b) => a - b)`
used by the classifier and the super-stairs check. -/
def sortedValues (dice : Dice) : List Nat :=
  List.insertionSort (fun a b => a ≤ b) (dice.map Die.value)

/-- Model of `detectSpecialRoll` from game-utils.ts. The JS code reads `values[0]`,
`values[1]`, `values[2]` (possibly `undefined`), compared with `===`. -/
def detectSpecialRoll (dice : Dice) : SpecialRollType :=
  let values := sortedValues dice
  let v0 := values[0]?
  let v1 := values[1]?
  let v2 := values[2]?
  if v0 = v1 ∧ v1 = v2 then .three_of_a_kind
  else if v0 = some 1 ∧ v1 = some 2 ∧ v2 = some 3 then .stairs
  else if v0 = some 4 ∧ v1 = some 5 ∧ v2 = some 6 then .super_stairs
  else if (v0 = some 2 ∧ v1 = some 3 ∧ v2 = some 4) ∨
          (v0 = some 3 ∧ v1 = some 4 ∧ v2 = some 5) then .shit_stairs
  else .none

/-- Model of `isSafeRoll` from game-utils.ts: safe iff not `none` and not `shit_stairs`. -/
def isSafeRoll (specialRollType : SpecialRollType) : Bool :=
  specialRollType ≠ SpecialRollType.none ∧ specialRollType ≠ SpecialRollType.shit_stairs

/-- Model of `getThreeOfAKindSips` from game-utils.ts. -/
def getThreeOfAKindSips (diceValue : Nat) : Nat :=
  if diceValue = 1 then 7 else diceValue

/-- Model of `getStartingParticipant` from game-utils.ts: `playerOrder[0]`
(`undefined` on an empty order, hence `Option`). -/
def getStartingParticipant (playerOrder : List Nat) : Option Nat :=
  playerOrder[0]?

/-- Model of `isSuperStairsValid` from game-utils.ts. -/
def isSuperStairsValid (currentDice : Dice) (previousTurnWasStairs : Bool) : Bool :=
  let values := sortedValues currentDice
  let isStairs456 :=
    decide (values[0]? = some 4 ∧ values[1]? = some 5 ∧ values[2]? = some 6)
  isStairs456 && previousTurnWasStairs

/-- Model of `isRoundCompleteFromData` from game-utils.ts. -/
def isRoundCompleteFromData (playerOrder : List Nat) (turnCount : Nat) : Bool :=
  turnCount = playerOrder.length

/-- Model of `getMaxRollsFromFirstTurn` from game-utils.ts:
`firstTurnRolls.length || 3` (0 is falsy in JS). -/
def getMaxRollsFromFirstTurn {α : Type} (firstTurnRolls : List α) : Nat :=
  if firstTurnRolls.length = 0 then 3 else firstTurnRolls.length

/-! ### Database row types (the fields the derivation core reads) -/

/-- A `rolls` table row (`SelectRoll`): the fields consumed by the mappers. -/
structure SelectRoll where
  id : Nat
  rollNumber : Nat
  dice : Dice
  rolledAt : Nat
deriving DecidableEq, Repr

/-- A `player_turns` table row (`SelectPlayerTurn`): the fields consumed by
the mappers and the previous-turn lookup. -/
structure SelectPlayerTurn where
  id : Nat
  roundId : Nat
  participantId : Nat
  turnOrder : Nat
deriving DecidableEq, Repr

/-- A `rounds` table row (`SelectRound`): the fields consumed by `mapRound`. -/
structure SelectRound where
  id : Nat
  gameSessionId : Nat
  roundNumber : Nat
  playerOrder : List Nat
  startedAt : Nat
deriving DecidableEq, Repr

/-- A `game_sessions` table row (`SelectGameSession`): the fields consumed by
`mapGame` (`completedAt` is nullable). -/
structure SelectGameSession where
  id : Nat
  ownerId : Nat
  createdAt : Nat
  completedAt : Option Nat
deriving DecidableEq, Repr

/-! ### Domain models (models.ts) -/

/-- Model of `RollModel` from models.ts: a roll row plus calculated fields. -/
structure RollModel where
  id : Nat
  rollNumber : Nat
  dice : Dice
  rolledAt : Nat
  score : Nat
  specialRollType : SpecialRollType
deriving DecidableEq, Repr

/-- Model of `PlayerTurnModel` from models.ts: a turn row plus calculated fields. -/
structure PlayerTurnModel where
  id : Nat
  roundId : Nat
  participantId : Nat
  turnOrder : Nat
  rolls : List RollModel
  totalRollsUsed : Nat
  finalScore : Option Nat
  isSafe : Bool
  specialRollType : SpecialRollType
  completedAt : Nat
deriving DecidableEq, Repr

/-- Model of `RoundModel.status` / `GameModel.status` tags from models.ts. -/
inductive RoundStatus where
  | in_progress
  | completed
deriving DecidableEq, Repr

/-- Model of `RoundModel` from models.ts: a round row plus calculated fields. -/
structure RoundModel where
  id : Nat
  gameSessionId : Nat
  roundNumber : Nat
  playerOrder : List Nat
  startedAt : Nat
  turns : List PlayerTurnModel
  status : RoundStatus
  startingParticipantId : Option Nat
  maxRollsAllowed : Nat
  currentPenaltySips : Nat
  finalPenaltySips : Option Nat
  losingParticipantId : Option Nat
  completedAt : Option Nat
deriving DecidableEq, Repr

/-- Model of `GameModel.status` tags from models.ts. -/
inductive GameStatus where
  | waiting
  | in_progress
  | completed
deriving DecidableEq, Repr

/-- Model of `GameModel` from models.ts (participants are carried opaquely as ids). -/
structure GameModel where
  id : Nat
  ownerId : Nat
  createdAt : Nat
  completedAt : Option Nat
  participants : List Nat
  rounds : List RoundModel
  status : GameStatus
  startedAt : Option Nat
deriving DecidableEq, Repr

/-! ### Remaining game-utils.ts derivation helpers -/

/-- The effective comparison score used inside `findLoserFromTurns`:
`turn.finalScore ?? Number.POSITIVE_INFINITY`, with `+∞` as `⊤ : WithTop ℕ`. -/
def effScore (t : PlayerTurnModel) : WithTop Nat :=
  match t.finalScore with
  | Option.none => ⊤
  | Option.some v => (v : WithTop Nat)

/-- Model of `calculatePenaltyFromTurns` from game-utils.ts: base 1 plus a
three-of-a-kind bonus per qualifying turn. The JS body reads
`turn.rolls[turn.rolls.length - 1].dice[0].value`; the unguarded accesses
(which would throw on a three-of-a-kind turn with no rolls or empty dice —
impossible for turns produced by `mapPlayerTurn` on well-formed rolls) are
modelled with `Option` defaults. -/
def calculatePenaltyFromTurns (turns : List PlayerTurnModel) : Nat :=
  turns.foldl
    (fun penaltySips turn =>
      if turn.specialRollType = SpecialRollType.three_of_a_kind then
        penaltySips + getThreeOfAKindSips
          ((((turn.rolls.getLast?).bind (fun lastRoll => lastRoll.dice[0]?)).map
              Die.value).getD 0)
      else penaltySips)
    1

/-- The body of the `reduce` in `findLoserFromTurns`: keep `current` only
when its score is strictly lower. -/
def lowerTurn (lowest current : PlayerTurnModel) : PlayerTurnModel :=
  if effScore current < effScore lowest then current else lowest

/-- Model of `findLoserFromTurns` from game-utils.ts: filter out safe turns, then a
no-initial-value `reduce` picking the strictly-lowest score; `null` when all
turns are safe. -/
def findLoserFromTurns (turns : List PlayerTurnModel) : Option Nat :=
  let unsafeTurns := turns.filter (fun t => !t.isSafe)
  match unsafeTurns with
  | [] => Option.none
  | first :: rest => Option.some (rest.foldl lowerTurn first).participantId

/-- One `[shuffled[i], shuffled[j]] = [shuffled[j], shuffled[i]]` swap of
`shuffleArray`; the indices are always in bounds in the source loop. -/
def listSwap {α : Type} (l : List α) (i j : Nat) : List α :=
  match l[i]?, l[j]? with
  | Option.some a, Option.some b => (l.set i b).set j a
  | _, _ => l

/-- The Fisher–Yates loop of `shuffleArray`, from index `i` down to 1:
`j = Math.floor(Math.random() * (i + 1))` is `rand i % (i + 1)`. -/
def shuffleGo {α : Type} (rand : Nat → Nat) : Nat → List α → List α
  | 0, l => l
  | i + 1, l => shuffleGo rand i (listSwap l (i + 1) (rand (i + 1) % (i + 2)))

/-- Model of `shuffleArray` from game-utils.ts (Fisher–Yates), with the random draws
supplied as the explicit `rand` input. -/
def shuffleArray {α : Type} (rand : Nat → Nat) (array : List α) : List α :=
  shuffleGo rand (array.length - 1) array

/-- Model of `createPlayerOrder` from game-utils.ts: starting participant first,
remaining participants filtered out of the input, optionally shuffled. -/
def createPlayerOrder (rand : Nat → Nat) (startingParticipantId : Nat)
    (allParticipantIds : List Nat) (shuffleOrder : Bool) : List Nat :=
  let remaining := allParticipantIds.filter (fun id => id ≠ startingParticipantId)
  let orderedRemaining := if shuffleOrder then shuffleArray rand remaining else remaining
  startingParticipantId :: orderedRemaining

/-! ### Mappers (mappers.ts)

The ambient wall clock (`new Date()`) is threaded as an explicit `now`. -/

/-- Model of `mapRoll` from mappers.ts. -/
def mapRoll (roll : SelectRoll) : RollModel :=
  { id := roll.id
    rollNumber := roll.rollNumber
    dice := roll.dice
    rolledAt := roll.rolledAt
    score := calculateScore roll.dice
    specialRollType := detectSpecialRoll roll.dice }

/-- Model of `mapPlayerTurn` from mappers.ts. `rollModels[rollModels.length - 1]` is
the (possibly absent) last element; `lastRoll?.specialRollType || "none"`,
`lastRoll?.score || 0` and `lastRoll?.rolledAt || new Date()` are modelled by
matching on its presence (every category string and every `Date` is truthy,
and a present score of 0 also yields 0). -/
def mapPlayerTurn (now : Nat) (turn : SelectPlayerTurn) (rolls : List SelectRoll) :
    PlayerTurnModel :=
  let rollModels := rolls.map mapRoll
  let lastRoll := rollModels.getLast?
  let specialRollType :=
    match lastRoll with
    | Option.some r => r.specialRollType
    | Option.none => SpecialRollType.none
  let isSafe := isSafeRoll specialRollType
  { id := turn.id
    roundId := turn.roundId
    participantId := turn.participantId
    turnOrder := turn.turnOrder
    rolls := rollModels
    totalRollsUsed := rollModels.length
    finalScore :=
      if isSafe then Option.none
      else Option.some (match lastRoll with
        | Option.some r => r.score
        | Option.none => 0)
    isSafe := isSafe
    specialRollType := specialRollType
    completedAt :=
      match lastRoll with
      | Option.some r => r.rolledAt
      | Option.none => now }

/-- Model of `mapRound` from mappers.ts. `rollsByTurnId` is the
`Map<number, SelectRoll[]>` parameter (`.get(turn.id) || []`). -/
def mapRound (now : Nat) (round : SelectRound) (turns : List SelectPlayerTurn)
    (rollsByTurnId : Nat → Option (List SelectRoll)) : RoundModel :=
  let turnModels := turns.map (fun turn =>
    mapPlayerTurn now turn ((rollsByTurnId turn.id).getD []))
  let isComplete := isRoundCompleteFromData round.playerOrder turns.length
  let status := if isComplete then RoundStatus.completed else RoundStatus.in_progress
  let maxRollsAllowed :=
    match turnModels with
    | [] => 3
    | firstTurn :: _ => getMaxRollsFromFirstTurn firstTurn.rolls
  let currentPenaltySips := calculatePenaltyFromTurns turnModels
  let losingParticipantId :=
    if isComplete then findLoserFromTurns turnModels else Option.none
  let completedAt :=
    if isComplete then
      match turnModels.getLast? with
      | Option.some lastTurn => Option.some lastTurn.completedAt
      | Option.none => Option.none
    else Option.none
  { id := round.id
    gameSessionId := round.gameSessionId
    roundNumber := round.roundNumber
    playerOrder := round.playerOrder
    startedAt := round.startedAt
    turns := turnModels
    status := status
    startingParticipantId := getStartingParticipant round.playerOrder
    maxRollsAllowed := maxRollsAllowed
    currentPenaltySips := currentPenaltySips
    finalPenaltySips := if isComplete then Option.some currentPenaltySips else Option.none
    losingParticipantId := losingParticipantId
    completedAt := completedAt }

/-- Model of `mapGame` from mappers.ts; `turnsByRoundId` and `rollsByTurnId` are the
two `Map` parameters. -/
def mapGame (now : Nat) (session : SelectGameSession) (participants : List Nat)
    (rounds : List SelectRound) (turnsByRoundId : Nat → Option (List SelectPlayerTurn))
    (rollsByTurnId : Nat → Option (List SelectRoll)) : GameModel :=
  let roundModels := rounds.map (fun round =>
    mapRound now round ((turnsByRoundId round.id).getD []) rollsByTurnId)
  let status :=
    match session.completedAt with
    | Option.some _ => GameStatus.completed
    | Option.none =>
      if roundModels.length > 0 then GameStatus.in_progress else GameStatus.waiting
  let startedAt :=
    match roundModels with
    | [] => Option.none
    | r :: _ => Option.some r.startedAt
  { id := session.id
    ownerId := session.ownerId
    createdAt := session.createdAt
    completedAt := session.completedAt
    participants := participants
    rounds := roundModels
    status := status
    startedAt := startedAt }

/-- Model of `wasPreviousTurnStairs` from the rounds query module, with the database
reads replaced by explicit inputs: `turns` is what
`getPlayerTurnsByRound` returns and `rollsByTurnId t` what
`getRollsByPlayerTurn t` returns. It refuses when there is no previous turn
(`currentTurnOrder <= 1`), finds the turn whose `turnOrder` is exactly one
less, maps it and checks its category is `stairs`. -/
def wasPreviousTurnStairs (now : Nat) (turns : List SelectPlayerTurn)
    (rollsByTurnId : Nat → List SelectRoll) (currentTurnOrder : Nat) : Bool :=
  if currentTurnOrder ≤ 1 then false
  else
    match turns.find? (fun t => t.turnOrder = currentTurnOrder - 1) with
    | Option.none => false
    | Option.some previousTurn =>
      (mapPlayerTurn now previousTurn (rollsByTurnId previousTurn.id)).specialRollType
        = SpecialRollType.stairs

/-! ### Spec-side definitions (transcribed from the specification's words,
for comparison with the source-side definitions above) -/

/-- Spec §4.2: sort ascending, then first match of: all equal →
three_of_a_kind; [1,2,3] → stairs; [4,5,6] → super_stairs; [2,3,4] or
[3,4,5] → shit_stairs; otherwise none. Input is the already-sorted faces. -/
def classifySpec : List Nat → SpecialRollType
  | [a, b, c] =>
    if a = b ∧ b = c then SpecialRollType.three_of_a_kind
    else if a = 1 ∧ b = 2 ∧ c = 3 then SpecialRollType.stairs
    else if a = 4 ∧ b = 5 ∧ c = 6 then SpecialRollType.super_stairs
    else if (a = 2 ∧ b = 3 ∧ c = 4) ∨ (a = 3 ∧ b = 4 ∧ c = 5) then
      SpecialRollType.shit_stairs
    else SpecialRollType.none
  | _ => SpecialRollType.none

/-- Spec §4.1: per-face point values 1→100, 2→2, 3→3, 4→4, 5→5, 6→60
(the table is only specified for faces 1..6). -/
def pointValue : Nat → Nat
  | 1 => 100
  | 2 => 2
  | 3 => 3
  | 4 => 4
  | 5 => 5
  | 6 => 60
  | _ => 0

/-- Spec §4.1: a roll's score is the sum of the per-face point values. -/
def specScore (dice : Dice) : Nat :=
  (dice.map (fun die => pointValue die.value)).sum

/-- Spec §3: three-of-a-kind penalty bonus by repeated face:
1 → 7, 6 → 6, n ∈ {2..5} → n. -/
def specSips (face : Nat) : Nat :=
  if face = 1 then 7 else if face = 6 then 6 else face

/-- The face the penalty computation reads from a turn: the first die of the
turn's last roll (`turn.rolls[turn.rolls.length - 1].dice[0].value`). -/
def lastRollFace (t : PlayerTurnModel) : Nat :=
  (((t.rolls.getLast?).bind (fun lastRoll => lastRoll.dice[0]?)).map Die.value).getD 0

/-! ### Helper lemmas -/

theorem sortedValues_length (dice : Dice) :
    (sortedValues dice).length = dice.length := by
  simp [sortedValues, List.length_insertionSort, List.length_map]

theorem sortedValues_perm (dice : Dice) :
    List.Perm (sortedValues dice) (dice.map Die.value) :=
  List.perm_insertionSort _ _

theorem sortedValues_sorted (dice : Dice) :
    (sortedValues dice).Sorted (fun a b => a ≤ b) :=
  List.sorted_insertionSort _ _

theorem sortedValues_eq_of_perm {dice dice' : Dice} (h : List.Perm dice dice') :
    sortedValues dice = sortedValues dice' :=
  List.eq_of_perm_of_sorted
    ((sortedValues_perm dice).trans ((h.map Die.value).trans (sortedValues_perm dice').symm))
    (sortedValues_sorted dice) (sortedValues_sorted dice')

theorem sortedValues_three {dice : Dice} (h3 : dice.length = 3) :
    ∃ a b c, sortedValues dice = [a, b, c] := by
  have hlen : (sortedValues dice).length = 3 := by rw [sortedValues_length, h3]
  rcases hsv : sortedValues dice with _ | ⟨a, _ | ⟨b, _ | ⟨c, _ | ⟨d, rest⟩⟩⟩⟩ <;>
    rw [hsv] at hlen <;> simp at hlen
  exact ⟨a, b, c, rfl⟩

theorem pointValue_eq_DICE_POINTS (v : Nat) : pointValue v = DICE_POINTS v := by
  unfold pointValue DICE_POINTS
  rfl

theorem foldl_add_map {α : Type} (f : α → Nat) :
    ∀ (l : List α) (a : Nat), l.foldl (fun s d => s + f d) a = a + (l.map f).sum
  | [], a => by simp
  | x :: xs, a => by
    rw [List.foldl_cons, foldl_add_map f xs (a + f x), List.map_cons, List.sum_cons,
      Nat.add_assoc]

theorem calculateScore_eq_specScore (dice : Dice) :
    calculateScore dice = specScore dice := by
  rw [calculateScore, foldl_add_map, Nat.zero_add, specScore]
  congr 1

/-! ### Claim theorems -/

/-- C3: for every dice set of three faces each in 1..6, `detectSpecialRoll`
returns the category obtained by sorting the three faces ascending and
testing in precedence order: all equal → three_of_a_kind; [1,2,3] → stairs;
[4,5,6] → super_stairs (pattern only); [2,3,4] or [3,4,5] → shit_stairs;
otherwise none. -/
theorem detectSpecialRoll_matches_spec (dice : Dice) (h3 : dice.length = 3)
    (hfaces : ∀ die ∈ dice, 1 ≤ die.value ∧ die.value ≤ 6) :
    detectSpecialRoll dice = classifySpec (sortedValues dice) := by
  obtain ⟨a, b, c, hsv⟩ := sortedValues_three h3
  rw [detectSpecialRoll, hsv, classifySpec]
  simp only [List.getElem?_cons_zero, List.getElem?_cons_succ, Option.some.injEq]

/-- Witness for C3 at the concrete roll [3,1,2] (a stairs pattern). -/
theorem detectSpecialRoll_matches_spec_witness :
    detectSpecialRoll [⟨3, false⟩, ⟨1, false⟩, ⟨2, true⟩]
      = classifySpec (sortedValues [⟨3, false⟩, ⟨1, false⟩, ⟨2, true⟩]) :=
  detectSpecialRoll_matches_spec [⟨3, false⟩, ⟨1, false⟩, ⟨2, true⟩]
    (by decide) (by decide)

/-- C8: the classifier is invariant under permutation of the three input
dice: permuted dice sets classify identically. -/
theorem detectSpecialRoll_perm_invariant (dice dice' : Dice)
    (h3 : dice.length = 3) (hperm : List.Perm dice dice') :
    detectSpecialRoll dice = detectSpecialRoll dice' := by
  rw [detectSpecialRoll, detectSpecialRoll, sortedValues_eq_of_perm hperm]

/-- Witness for C8 at the concrete reordering [3,1,2] of [1,2,3]. -/
theorem detectSpecialRoll_perm_invariant_witness :
    detectSpecialRoll [⟨1, false⟩, ⟨2, false⟩, ⟨3, false⟩]
      = detectSpecialRoll [⟨3, false⟩, ⟨1, false⟩, ⟨2, false⟩] :=
  detectSpecialRoll_perm_invariant _ _ (by decide)
    (by decide)

/-- C2: for a turn with at least one roll, the turn is safe iff its last
roll classifies as three_of_a_kind, stairs or super_stairs; an unsafe turn's
finalScore is the sum of the per-face point values (1→100, 2→2, 3→3, 4→4,
5→5, 6→60) of the last roll's three dice; a safe turn's finalScore is null. -/
theorem mapPlayerTurn_safety_finalScore (now : Nat) (turn : SelectPlayerTurn)
    (rolls : List SelectRoll) (lastRoll : SelectRoll)
    (hlast : rolls.getLast? = some lastRoll)
    (h3 : lastRoll.dice.length = 3)
    (hfaces : ∀ die ∈ lastRoll.dice, 1 ≤ die.value ∧ die.value ≤ 6) :
    ((mapPlayerTurn now turn rolls).isSafe = true ↔
      detectSpecialRoll lastRoll.dice = SpecialRollType.three_of_a_kind ∨
      detectSpecialRoll lastRoll.dice = SpecialRollType.stairs ∨
      detectSpecialRoll lastRoll.dice = SpecialRollType.super_stairs) ∧
    ((mapPlayerTurn now turn rolls).isSafe = false →
      (mapPlayerTurn now turn rolls).finalScore = Option.some (specScore lastRoll.dice)) ∧
    ((mapPlayerTurn now turn rolls).isSafe = true →
      (mapPlayerTurn now turn rolls).finalScore = Option.none) := by
  have hm : (rolls.map mapRoll).getLast? = some (mapRoll lastRoll) := by
    rw [List.getLast?_map, hlast]
    rfl
  simp only [mapPlayerTurn, hm, mapRoll, calculateScore_eq_specScore]
  rcases h : detectSpecialRoll lastRoll.dice <;> simp [isSafeRoll, h]

/-- Witness for C2 at a one-roll turn whose roll is [2,3,4] (shit_stairs,
unsafe, score 9). -/
theorem mapPlayerTurn_safety_finalScore_witness :
    ((mapPlayerTurn 0 ⟨1, 1, 7, 1⟩ [⟨1, 1, [⟨2, false⟩, ⟨3, false⟩, ⟨4, false⟩], 5⟩]).isSafe = true ↔
      detectSpecialRoll [⟨2, false⟩, ⟨3, false⟩, ⟨4, false⟩] = SpecialRollType.three_of_a_kind ∨
      detectSpecialRoll [⟨2, false⟩, ⟨3, false⟩, ⟨4, false⟩] = SpecialRollType.stairs ∨
      detectSpecialRoll [⟨2, false⟩, ⟨3, false⟩, ⟨4, false⟩] = SpecialRollType.super_stairs) ∧
    ((mapPlayerTurn 0 ⟨1, 1, 7, 1⟩ [⟨1, 1, [⟨2, false⟩, ⟨3, false⟩, ⟨4, false⟩], 5⟩]).isSafe = false →
      (mapPlayerTurn 0 ⟨1, 1, 7, 1⟩ [⟨1, 1, [⟨2, false⟩, ⟨3, false⟩, ⟨4, false⟩], 5⟩]).finalScore
        = Option.some (specScore [⟨2, false⟩, ⟨3, false⟩, ⟨4, false⟩])) ∧
    ((mapPlayerTurn 0 ⟨1, 1, 7, 1⟩ [⟨1, 1, [⟨2, false⟩, ⟨3, false⟩, ⟨4, false⟩], 5⟩]).isSafe = true →
      (mapPlayerTurn 0 ⟨1, 1, 7, 1⟩ [⟨1, 1, [⟨2, false⟩, ⟨3, false⟩, ⟨4, false⟩], 5⟩]).finalScore
        = Option.none) :=
  mapPlayerTurn_safety_finalScore 0 ⟨1, 1, 7, 1⟩ _ ⟨1, 1, [⟨2, false⟩, ⟨3, false⟩, ⟨4, false⟩], 5⟩
    (by decide) (by decide) (by decide)

/-- C10: a turn with an empty roll list maps to totalRollsUsed 0, category
`none`, unsafe, and finalScore 0 (a number, not null); 0 is strictly below
every score achievable by an actual roll of three valid dice. -/
theorem mapPlayerTurn_empty_rolls (now : Nat) (turn : SelectPlayerTurn) :
    (mapPlayerTurn now turn []).totalRollsUsed = 0 ∧
    (mapPlayerTurn now turn []).specialRollType = SpecialRollType.none ∧
    (mapPlayerTurn now turn []).isSafe = false ∧
    (mapPlayerTurn now turn []).finalScore = Option.some 0 ∧
    (∀ (dice : Dice), dice.length = 3 →
      (∀ die ∈ dice, 1 ≤ die.value ∧ die.value ≤ 6) → 0 < calculateScore dice) := by
  refine ⟨rfl, rfl, rfl, rfl, ?_⟩
  intro dice h3 hfaces
  rcases dice with _ | ⟨d1, rest⟩
  · simp at h3
  · have hd1 := hfaces d1 (List.mem_cons_self d1 rest)
    have h2 : 2 ≤ DICE_POINTS d1.value := by
      obtain ⟨hl, hh⟩ := hd1
      set v := d1.value with hv
      interval_cases v <;> decide
    rw [calculateScore, foldl_add_map, Nat.zero_add, List.map_cons, List.sum_cons]
    omega

/-- Witness for C10: a concrete empty-roll turn, and the concrete roll
[2,2,2] (the lowest-scoring valid dice set, worth 6). -/
theorem mapPlayerTurn_empty_rolls_witness :
    (mapPlayerTurn 3 ⟨1, 1, 7, 1⟩ []).finalScore = Option.some 0 ∧
    0 < calculateScore [⟨2, false⟩, ⟨2, false⟩, ⟨2, false⟩] :=
  ⟨(mapPlayerTurn_empty_rolls 3 ⟨1, 1, 7, 1⟩).2.2.2.1,
   (mapPlayerTurn_empty_rolls 3 ⟨1, 1, 7, 1⟩).2.2.2.2
     [⟨2, false⟩, ⟨2, false⟩, ⟨2, false⟩] (by decide) (by decide)⟩

/-- C7 counterexample: `mapPlayerTurn` is not a pure function of its explicit
inputs on a turn with an empty roll list — `completedAt` is `new Date()`,
so two calls with equal explicit inputs but different ambient clock values
disagree. -/
theorem mapPlayerTurn_reads_clock_on_empty_turn :
    mapPlayerTurn 0 ⟨1, 1, 7, 1⟩ [] ≠ mapPlayerTurn 1 ⟨1, 1, 7, 1⟩ [] := by
  decide

theorem mapPlayerTurn_now_congr (now₁ now₂ : Nat) (turn : SelectPlayerTurn)
    (rolls : List SelectRoll) (hne : rolls ≠ []) :
    mapPlayerTurn now₁ turn rolls = mapPlayerTurn now₂ turn rolls := by
  obtain ⟨r, hr⟩ := Option.isSome_iff_exists.mp (List.getLast?_isSome.mpr hne)
  simp only [mapPlayerTurn, List.getLast?_map, hr, Option.map_some']

theorem mapRound_now_congr (now₁ now₂ : Nat) (round : SelectRound)
    (turns : List SelectPlayerTurn) (rollsByTurnId : Nat → Option (List SelectRoll))
    (h : ∀ t ∈ turns, (rollsByTurnId t.id).getD [] ≠ []) :
    mapRound now₁ round turns rollsByTurnId = mapRound now₂ round turns rollsByTurnId := by
  have hmap : turns.map (fun t => mapPlayerTurn now₁ t ((rollsByTurnId t.id).getD []))
      = turns.map (fun t => mapPlayerTurn now₂ t ((rollsByTurnId t.id).getD [])) :=
    List.map_congr_left (fun t ht => mapPlayerTurn_now_congr now₁ now₂ t _ (h t ht))
  simp only [mapRound, hmap]

theorem mapGame_now_congr (now₁ now₂ : Nat) (session : SelectGameSession)
    (participants : List Nat) (rounds : List SelectRound)
    (turnsByRoundId : Nat → Option (List SelectPlayerTurn))
    (rollsByTurnId : Nat → Option (List SelectRoll))
    (h : ∀ r ∈ rounds, ∀ t ∈ (turnsByRoundId r.id).getD [],
      (rollsByTurnId t.id).getD [] ≠ []) :
    mapGame now₁ session participants rounds turnsByRoundId rollsByTurnId
      = mapGame now₂ session participants rounds turnsByRoundId rollsByTurnId := by
  have hmap : rounds.map (fun r => mapRound now₁ r ((turnsByRoundId r.id).getD []) rollsByTurnId)
      = rounds.map (fun r => mapRound now₂ r ((turnsByRoundId r.id).getD []) rollsByTurnId) :=
    List.map_congr_left (fun r hr => mapRound_now_congr now₁ now₂ r _ _ (h r hr))
  simp only [mapGame, hmap]

/-- C7 amended: the mappers are deterministic in their explicit inputs except
that `mapPlayerTurn` (and `mapRound`/`mapGame` through it) reads the ambient
wall clock to fill `completedAt` of a turn with an empty roll list; whenever
every turn involved has at least one roll, the results are independent of
the clock. -/
theorem mappers_clock_independent_on_nonempty_turns :
    (∀ (now₁ now₂ : Nat) (turn : SelectPlayerTurn) (rolls : List SelectRoll),
      rolls ≠ [] → mapPlayerTurn now₁ turn rolls = mapPlayerTurn now₂ turn rolls) ∧
    (∀ (now₁ now₂ : Nat) (round : SelectRound) (turns : List SelectPlayerTurn)
      (rollsByTurnId : Nat → Option (List SelectRoll)),
      (∀ t ∈ turns, (rollsByTurnId t.id).getD [] ≠ []) →
      mapRound now₁ round turns rollsByTurnId = mapRound now₂ round turns rollsByTurnId) ∧
    (∀ (now₁ now₂ : Nat) (session : SelectGameSession) (participants : List Nat)
      (rounds : List SelectRound) (turnsByRoundId : Nat → Option (List SelectPlayerTurn))
      (rollsByTurnId : Nat → Option (List SelectRoll)),
      (∀ r ∈ rounds, ∀ t ∈ (turnsByRoundId r.id).getD [],
        (rollsByTurnId t.id).getD [] ≠ []) →
      mapGame now₁ session participants rounds turnsByRoundId rollsByTurnId
        = mapGame now₂ session participants rounds turnsByRoundId rollsByTurnId) :=
  ⟨mapPlayerTurn_now_congr, mapRound_now_congr, mapGame_now_congr⟩

/-- Witness for the amended C7 at concrete inputs with one-roll turns and
two different clock values. -/
theorem mappers_clock_independent_on_nonempty_turns_witness :
    mapPlayerTurn 0 ⟨1, 1, 7, 1⟩ [⟨1, 1, [⟨2, false⟩, ⟨3, false⟩, ⟨4, false⟩], 5⟩]
      = mapPlayerTurn 9 ⟨1, 1, 7, 1⟩ [⟨1, 1, [⟨2, false⟩, ⟨3, false⟩, ⟨4, false⟩], 5⟩] ∧
    mapRound 0 ⟨1, 1, 1, [7], 4⟩ [⟨1, 1, 7, 1⟩]
        (fun _ => some [⟨1, 1, [⟨2, false⟩, ⟨3, false⟩, ⟨4, false⟩], 5⟩])
      = mapRound 9 ⟨1, 1, 1, [7], 4⟩ [⟨1, 1, 7, 1⟩]
        (fun _ => some [⟨1, 1, [⟨2, false⟩, ⟨3, false⟩, ⟨4, false⟩], 5⟩]) :=
  ⟨mappers_clock_independent_on_nonempty_turns.1 0 9 ⟨1, 1, 7, 1⟩
      [⟨1, 1, [⟨2, false⟩, ⟨3, false⟩, ⟨4, false⟩], 5⟩] (by decide),
   mappers_clock_independent_on_nonempty_turns.2.1 0 9 ⟨1, 1, 1, [7], 4⟩ [⟨1, 1, 7, 1⟩]
      (fun _ => some [⟨1, 1, [⟨2, false⟩, ⟨3, false⟩, ⟨4, false⟩], 5⟩])
      (by intro t ht; simp)⟩

/-- The no-initial-value `reduce` of `findLoserFromTurns` returns an element
of the list that attains the minimum effective score, and every element
strictly before its position has a strictly greater effective score (the
strict `<` comparison never replaces the current minimum on a tie). -/
theorem foldl_lowerTurn_spec (rest : List PlayerTurnModel) :
    ∀ first : PlayerTurnModel, ∃ i : Nat,
      (first :: rest)[i]? = some (rest.foldl lowerTurn first) ∧
      (∀ u ∈ first :: rest, effScore (rest.foldl lowerTurn first) ≤ effScore u) ∧
      (∀ k, k < i → ∀ u, (first :: rest)[k]? = some u →
        effScore (rest.foldl lowerTurn first) < effScore u) := by
  induction rest with
  | nil =>
    intro first
    refine ⟨0, by simp, ?_, ?_⟩
    · intro u hu
      rcases List.mem_singleton.mp hu with rfl
      exact le_refl _
    · intro k hk u _
      exact absurd hk (Nat.not_lt_zero k)
  | cons c cs ih =>
    intro first
    rw [List.foldl_cons]
    obtain ⟨i', h1, h2, h3⟩ := ih (lowerTurn first c)
    by_cases hc : effScore c < effScore first
    · have hl : lowerTurn first c = c := if_pos hc
      rw [hl] at h1 h2 h3 ⊢
      refine ⟨i' + 1, by simpa using h1, ?_, ?_⟩
      · intro u hu
        rcases List.mem_cons.mp hu with rfl | hu'
        · exact le_trans (h2 c (List.mem_cons_self c cs)) (le_of_lt hc)
        · exact h2 u hu'
      · intro k hk u hku
        rcases k with _ | k'
        · obtain rfl : first = u := by simpa using hku
          exact lt_of_le_of_lt (h2 c (List.mem_cons_self c cs)) hc
        · exact h3 k' (Nat.lt_of_succ_lt_succ hk) u (by simpa using hku)
    · have hl : lowerTurn first c = first := if_neg hc
      have hfc : effScore first ≤ effScore c := not_lt.mp hc
      rw [hl] at h1 h2 h3 ⊢
      rcases i' with _ | j
      · have hres : cs.foldl lowerTurn first = first := by
          have := h1
          simpa using this.symm
        refine ⟨0, by simp [hres], ?_, ?_⟩
        · intro u hu
          rcases List.mem_cons.mp hu with rfl | hu'
          · simp [hres]
          rcases List.mem_cons.mp hu' with rfl | hu''
          · rw [hres]; exact hfc
          · exact h2 u (List.mem_cons_of_mem first hu'')
        · intro k hk u _
          exact absurd hk (Nat.not_lt_zero k)
      · refine ⟨j + 2, by simpa using h1, ?_, ?_⟩
        · intro u hu
          rcases List.mem_cons.mp hu with rfl | hu'
          · exact h2 u (List.mem_cons_self u cs)
          rcases List.mem_cons.mp hu' with rfl | hu''
          · exact le_trans (h2 first (List.mem_cons_self first cs)) hfc
          · exact h2 u (List.mem_cons_of_mem first hu'')
        · intro k hk u hku
          rcases k with _ | k'
          · obtain rfl : first = u := by simpa using hku
            exact h3 0 (Nat.succ_pos j) first (by simp)
          rcases k' with _ | k''
          · obtain rfl : c = u := by simpa using hku
            exact lt_of_lt_of_le (h3 0 (Nat.succ_pos j) first (by simp)) hfc
          · exact h3 (k'' + 1) (by omega) u (by simpa using hku)

theorem findLoserFromTurns_all_safe (turns : List PlayerTurnModel)
    (h : ∀ t ∈ turns, t.isSafe = true) : findLoserFromTurns turns = Option.none := by
  have hf : turns.filter (fun t => !t.isSafe) = [] := by
    rw [List.filter_eq_nil_iff]
    intro t ht
    simp [h t ht]
  rw [findLoserFromTurns, hf]

theorem findLoserFromTurns_min (turns : List PlayerTurnModel)
    (t₀ : PlayerTurnModel) (ht₀ : t₀ ∈ turns) (hnosafe : t₀.isSafe = false) :
    ∃ loser ∈ turns, loser.isSafe = false ∧
      findLoserFromTurns turns = Option.some loser.participantId ∧
      ∀ u ∈ turns, u.isSafe = false → effScore loser ≤ effScore u := by
  have ht₀f : t₀ ∈ turns.filter (fun t => !t.isSafe) :=
    List.mem_filter.mpr ⟨ht₀, by simp [hnosafe]⟩
  rcases hfil : turns.filter (fun t => !t.isSafe) with _ | ⟨first, rest⟩
  · rw [hfil] at ht₀f; simp at ht₀f
  obtain ⟨i, hidx, hmin, _⟩ := foldl_lowerTurn_spec rest first
  have hmemf : rest.foldl lowerTurn first ∈ turns.filter (fun t => !t.isSafe) := by
    rw [hfil]
    exact List.getElem?_mem hidx
  refine ⟨rest.foldl lowerTurn first, ?_, ?_, ?_, ?_⟩
  · exact List.mem_of_mem_filter hmemf
  · have := (List.mem_filter.mp hmemf).2
    simpa using this
  · rw [findLoserFromTurns, hfil]
  · intro u hu husafe
    exact hmin u (hfil ▸ List.mem_filter.mpr ⟨hu, by simp [husafe]⟩)

theorem mapRound_turns (now : Nat) (round : SelectRound)
    (turns : List SelectPlayerTurn) (m : Nat → Option (List SelectRoll)) :
    (mapRound now round turns m).turns
      = turns.map (fun t => mapPlayerTurn now t ((m t.id).getD [])) := rfl

theorem mapRound_losing_complete (now : Nat) (round : SelectRound)
    (turns : List SelectPlayerTurn) (m : Nat → Option (List SelectRoll))
    (hcomp : turns.length = round.playerOrder.length) :
    (mapRound now round turns m).losingParticipantId
      = findLoserFromTurns ((mapRound now round turns m).turns) := by
  simp [mapRound, isRoundCompleteFromData, hcomp]

theorem mapRound_losing_incomplete (now : Nat) (round : SelectRound)
    (turns : List SelectPlayerTurn) (m : Nat → Option (List SelectRoll))
    (h : turns.length ≠ round.playerOrder.length) :
    (mapRound now round turns m).losingParticipantId = Option.none := by
  simp [mapRound, isRoundCompleteFromData, h]

theorem mapPlayerTurn_finalScore_of_unsafe (now : Nat) (turn : SelectPlayerTurn)
    (rolls : List SelectRoll) (h : (mapPlayerTurn now turn rolls).isSafe = false) :
    ∃ s, (mapPlayerTurn now turn rolls).finalScore = Option.some s := by
  simp only [mapPlayerTurn, List.getLast?_map] at h ⊢
  simp [h]

theorem effScore_eq_coe {t : PlayerTurnModel} {s : Nat}
    (h : t.finalScore = Option.some s) : effScore t = (s : WithTop Nat) := by
  simp [effScore, h]

/-- C1: in a completed round (turn count = playerOrder length) the round's
losingParticipantId is the participantId of a turn attaining the minimum
finalScore among the unsafe turns, and is null when every turn is safe; for
an incomplete round it is null (not computed). -/
theorem mapRound_losingParticipant (now : Nat) (round : SelectRound)
    (turns : List SelectPlayerTurn) (rollsByTurnId : Nat → Option (List SelectRoll))
    (rm : RoundModel) (hrm : rm = mapRound now round turns rollsByTurnId) :
    (turns.length ≠ round.playerOrder.length → rm.losingParticipantId = Option.none) ∧
    (turns.length = round.playerOrder.length →
      ((∀ t ∈ rm.turns, t.isSafe = true) → rm.losingParticipantId = Option.none) ∧
      (∀ t₀ ∈ rm.turns, t₀.isSafe = false →
        ∃ loser ∈ rm.turns, loser.isSafe = false ∧
          rm.losingParticipantId = Option.some loser.participantId ∧
          ∃ ls, loser.finalScore = Option.some ls ∧
            ∀ u ∈ rm.turns, u.isSafe = false →
              ∀ us, u.finalScore = Option.some us → ls ≤ us)) := by
  subst hrm
  refine ⟨?_, ?_⟩
  · intro hne
    exact mapRound_losing_incomplete now round turns rollsByTurnId hne
  · intro hcomp
    refine ⟨?_, ?_⟩
    · intro hall
      rw [mapRound_losing_complete now round turns rollsByTurnId hcomp]
      exact findLoserFromTurns_all_safe _ hall
    · intro t₀ ht₀ hsafe
      obtain ⟨loser, hmem, hnosafe, hfind, hminall⟩ :=
        findLoserFromTurns_min _ t₀ ht₀ hsafe
      have hmem' := hmem
      rw [mapRound_turns] at hmem'
      obtain ⟨a, ha, haeq⟩ := List.mem_map.mp hmem'
      obtain ⟨ls, hls⟩ := mapPlayerTurn_finalScore_of_unsafe now a _
        (by rw [haeq]; exact hnosafe)
      have hls' : loser.finalScore = Option.some ls := by rw [← haeq]; exact hls
      refine ⟨loser, hmem, hnosafe, ?_, ls, hls', ?_⟩
      · rw [mapRound_losing_complete now round turns rollsByTurnId hcomp]
        exact hfind
      · intro u hu huns us hus
        have h1 := hminall u hu huns
        rw [effScore_eq_coe hls', effScore_eq_coe hus] at h1
        exact_mod_cast h1

/-- Witness for C1: a concrete completed round of two turns, both unsafe,
with scores 9 and 7 — the loser is the participant of the 7-score turn. -/
theorem mapRound_losingParticipant_witness :
    ((∀ t ∈ (mapRound 0 ⟨1, 1, 1, [7, 8], 4⟩ [⟨1, 1, 7, 1⟩, ⟨2, 1, 8, 2⟩]
          (fun tid => if tid = 1
            then some [⟨1, 1, [⟨2, false⟩, ⟨3, false⟩, ⟨4, false⟩], 5⟩]
            else some [⟨2, 1, [⟨2, false⟩, ⟨2, false⟩, ⟨3, false⟩], 6⟩])).turns,
          t.isSafe = true) →
        (mapRound 0 ⟨1, 1, 1, [7, 8], 4⟩ [⟨1, 1, 7, 1⟩, ⟨2, 1, 8, 2⟩]
          (fun tid => if tid = 1
            then some [⟨1, 1, [⟨2, false⟩, ⟨3, false⟩, ⟨4, false⟩], 5⟩]
            else some [⟨2, 1, [⟨2, false⟩, ⟨2, false⟩, ⟨3, false⟩], 6⟩])).losingParticipantId
          = Option.none) ∧
      (∀ t₀ ∈ (mapRound 0 ⟨1, 1, 1, [7, 8], 4⟩ [⟨1, 1, 7, 1⟩, ⟨2, 1, 8, 2⟩]
          (fun tid => if tid = 1
            then some [⟨1, 1, [⟨2, false⟩, ⟨3, false⟩, ⟨4, false⟩], 5⟩]
            else some [⟨2, 1, [⟨2, false⟩, ⟨2, false⟩, ⟨3, false⟩], 6⟩])).turns,
        t₀.isSafe = false →
        ∃ loser ∈ (mapRound 0 ⟨1, 1, 1, [7, 8], 4⟩ [⟨1, 1, 7, 1⟩, ⟨2, 1, 8, 2⟩]
          (fun tid => if tid = 1
            then some [⟨1, 1, [⟨2, false⟩, ⟨3, false⟩, ⟨4, false⟩], 5⟩]
            else some [⟨2, 1, [⟨2, false⟩, ⟨2, false⟩, ⟨3, false⟩], 6⟩])).turns,
          loser.isSafe = false ∧
          (mapRound 0 ⟨1, 1, 1, [7, 8], 4⟩ [⟨1, 1, 7, 1⟩, ⟨2, 1, 8, 2⟩]
            (fun tid => if tid = 1
              then some [⟨1, 1, [⟨2, false⟩, ⟨3, false⟩, ⟨4, false⟩], 5⟩]
              else some [⟨2, 1, [⟨2, false⟩, ⟨2, false⟩, ⟨3, false⟩], 6⟩])).losingParticipantId
            = Option.some loser.participantId ∧
          ∃ ls, loser.finalScore = Option.some ls ∧
            ∀ u ∈ (mapRound 0 ⟨1, 1, 1, [7, 8], 4⟩ [⟨1, 1, 7, 1⟩, ⟨2, 1, 8, 2⟩]
              (fun tid => if tid = 1
                then some [⟨1, 1, [⟨2, false⟩, ⟨3, false⟩, ⟨4, false⟩], 5⟩]
                else some [⟨2, 1, [⟨2, false⟩, ⟨2, false⟩, ⟨3, false⟩], 6⟩])).turns,
              u.isSafe = false →
              ∀ us, u.finalScore = Option.some us → ls ≤ us) :=
  (mapRound_losingParticipant 0 ⟨1, 1, 1, [7, 8], 4⟩ [⟨1, 1, 7, 1⟩, ⟨2, 1, 8, 2⟩]
    (fun tid => if tid = 1
      then some [⟨1, 1, [⟨2, false⟩, ⟨3, false⟩, ⟨4, false⟩], 5⟩]
      else some [⟨2, 1, [⟨2, false⟩, ⟨2, false⟩, ⟨3, false⟩], 6⟩])
    _ rfl).2 rfl

/-- C9 (implicit tie-break): when at least one turn is unsafe, the reduce in
`findLoserFromTurns` returns the participantId of the earliest unsafe turn
(in input order) attaining the minimum score — every unsafe turn strictly
before it scores strictly higher, because the strict `<` comparison never
replaces the running minimum on a tie. -/
theorem findLoserFromTurns_earliest_min (turns : List PlayerTurnModel)
    (h : ∃ t ∈ turns, t.isSafe = false) :
    ∃ (i : Nat) (loser : PlayerTurnModel),
      (turns.filter (fun t => !t.isSafe))[i]? = some loser ∧
      findLoserFromTurns turns = Option.some loser.participantId ∧
      (∀ u ∈ turns.filter (fun t => !t.isSafe), effScore loser ≤ effScore u) ∧
      (∀ k, k < i → ∀ u, (turns.filter (fun t => !t.isSafe))[k]? = some u →
        effScore loser < effScore u) := by
  obtain ⟨t₀, ht₀, hsafe⟩ := h
  rcases hfil : turns.filter (fun t => !t.isSafe) with _ | ⟨first, rest⟩
  · exfalso
    have ht₀f : t₀ ∈ turns.filter (fun t => !t.isSafe) :=
      List.mem_filter.mpr ⟨ht₀, by simp [hsafe]⟩
    rw [hfil] at ht₀f
    simp at ht₀f
  · obtain ⟨i, hidx, hmin, hstrict⟩ := foldl_lowerTurn_spec rest first
    refine ⟨i, rest.foldl lowerTurn first, ?_, ?_, ?_, ?_⟩
    · rw [hfil]; exact hidx
    · rw [findLoserFromTurns, hfil]
    · intro u hu
      rw [hfil] at hu
      exact hmin u hu
    · intro k hk u hku
      rw [hfil] at hku
      exact hstrict k hk u hku

/-- Witness for C9: three unsafe turns with scores 9, 7, 7 — the loser is
the first 7-score turn (participant 8), not the later tied one. -/
theorem findLoserFromTurns_earliest_min_witness :
    ∃ (i : Nat) (loser : PlayerTurnModel),
      ([mapPlayerTurn 0 ⟨1, 1, 7, 1⟩ [⟨1, 1, [⟨2, false⟩, ⟨3, false⟩, ⟨4, false⟩], 5⟩],
         mapPlayerTurn 0 ⟨2, 1, 8, 2⟩ [⟨2, 1, [⟨2, false⟩, ⟨2, false⟩, ⟨3, false⟩], 6⟩],
         mapPlayerTurn 0 ⟨3, 1, 9, 3⟩ [⟨3, 1, [⟨2, false⟩, ⟨2, false⟩, ⟨3, false⟩], 7⟩]].filter
          (fun t => !t.isSafe))[i]? = some loser ∧
      findLoserFromTurns
          [mapPlayerTurn 0 ⟨1, 1, 7, 1⟩ [⟨1, 1, [⟨2, false⟩, ⟨3, false⟩, ⟨4, false⟩], 5⟩],
           mapPlayerTurn 0 ⟨2, 1, 8, 2⟩ [⟨2, 1, [⟨2, false⟩, ⟨2, false⟩, ⟨3, false⟩], 6⟩],
           mapPlayerTurn 0 ⟨3, 1, 9, 3⟩ [⟨3, 1, [⟨2, false⟩, ⟨2, false⟩, ⟨3, false⟩], 7⟩]]
        = Option.some loser.participantId ∧
      (∀ u ∈ [mapPlayerTurn 0 ⟨1, 1, 7, 1⟩ [⟨1, 1, [⟨2, false⟩, ⟨3, false⟩, ⟨4, false⟩], 5⟩],
              mapPlayerTurn 0 ⟨2, 1, 8, 2⟩ [⟨2, 1, [⟨2, false⟩, ⟨2, false⟩, ⟨3, false⟩], 6⟩],
              mapPlayerTurn 0 ⟨3, 1, 9, 3⟩ [⟨3, 1, [⟨2, false⟩, ⟨2, false⟩, ⟨3, false⟩], 7⟩]].filter
          (fun t => !t.isSafe), effScore loser ≤ effScore u) ∧
      (∀ k, k < i → ∀ u,
        ([mapPlayerTurn 0 ⟨1, 1, 7, 1⟩ [⟨1, 1, [⟨2, false⟩, ⟨3, false⟩, ⟨4, false⟩], 5⟩],
           mapPlayerTurn 0 ⟨2, 1, 8, 2⟩ [⟨2, 1, [⟨2, false⟩, ⟨2, false⟩, ⟨3, false⟩], 6⟩],
           mapPlayerTurn 0 ⟨3, 1, 9, 3⟩ [⟨3, 1, [⟨2, false⟩, ⟨2, false⟩, ⟨3, false⟩], 7⟩]].filter
            (fun t => !t.isSafe))[k]? = some u → effScore loser < effScore u) :=
  findLoserFromTurns_earliest_min _
    ⟨mapPlayerTurn 0 ⟨1, 1, 7, 1⟩ [⟨1, 1, [⟨2, false⟩, ⟨3, false⟩, ⟨4, false⟩], 5⟩],
     by simp, by decide⟩

theorem foldl_addIf_eq {α : Type} (c : α → Prop) [DecidablePred c] (b : α → Nat) :
    ∀ (l : List α) (a : Nat),
      l.foldl (fun p t => if c t then p + b t else p) a
        = a + (l.map (fun t => if c t then b t else 0)).sum
  | [], a => by simp
  | x :: xs, a => by
    by_cases hx : c x <;>
      simp [List.foldl_cons, hx, foldl_addIf_eq c b xs, List.map_cons, List.sum_cons,
        Nat.add_assoc]

theorem calculatePenaltyFromTurns_eq_sum (turns : List PlayerTurnModel) :
    calculatePenaltyFromTurns turns
      = 1 + (turns.map (fun t =>
          if t.specialRollType = SpecialRollType.three_of_a_kind
          then getThreeOfAKindSips (lastRollFace t) else 0)).sum :=
  foldl_addIf_eq _ _ turns 1

theorem specSips_eq_getThreeOfAKindSips (v : Nat) :
    specSips v = getThreeOfAKindSips v := by
  unfold specSips getThreeOfAKindSips
  by_cases h1 : v = 1 <;> by_cases h6 : v = 6 <;> simp [h1, h6]

theorem all_values_eq_of_three_of_a_kind {dice : Dice} (h3 : dice.length = 3)
    (hd : detectSpecialRoll dice = SpecialRollType.three_of_a_kind) :
    ∃ v, ∀ die ∈ dice, die.value = v := by
  obtain ⟨a, b, c, hsv⟩ := sortedValues_three h3
  rw [detectSpecialRoll, hsv] at hd
  simp only [List.getElem?_cons_zero, List.getElem?_cons_succ, Option.some.injEq] at hd
  by_cases hab : a = b ∧ b = c
  · obtain ⟨h1, h2⟩ := hab
    refine ⟨a, fun die hdie => ?_⟩
    have hmem : die.value ∈ sortedValues dice :=
      ((sortedValues_perm dice).mem_iff).mpr (List.mem_map_of_mem Die.value hdie)
    rw [hsv] at hmem
    rcases List.mem_cons.mp hmem with h | hmem'
    · exact h
    rcases List.mem_cons.mp hmem' with h | hmem''
    · rw [h, ← h1]
    rcases List.mem_cons.mp hmem'' with h | hmem'''
    · rw [h, ← h2, ← h1]
    · simp at hmem'''
  · rw [if_neg hab] at hd
    exfalso
    split_ifs at hd <;> simp at hd

theorem mapPlayerTurn_specialRollType_getLast (now : Nat) (turn : SelectPlayerTurn)
    (rolls : List SelectRoll)
    (h : (mapPlayerTurn now turn rolls).specialRollType ≠ SpecialRollType.none) :
    ∃ r, rolls.getLast? = some r ∧
      (mapPlayerTurn now turn rolls).rolls.getLast? = some (mapRoll r) ∧
      detectSpecialRoll r.dice = (mapPlayerTurn now turn rolls).specialRollType := by
  rcases hr : rolls.getLast? with _ | r
  · exfalso
    apply h
    simp [mapPlayerTurn, List.getLast?_map, hr]
  · refine ⟨r, rfl, ?_, ?_⟩
    · simp [mapPlayerTurn, List.getLast?_map, hr]
    · simp [mapPlayerTurn, List.getLast?_map, hr, mapRoll]

/-- C4: a round's currentPenaltySips is 1 plus, for every turn classified
three_of_a_kind, a bonus from that turn's repeated face (1 → 7, 6 → 6,
n ∈ {2..5} → n); it is defined for every round regardless of completion
(1 when there are no turns), and finalPenaltySips equals it exactly when
the round is completed and is null otherwise. -/
theorem mapRound_penaltySips (now : Nat) (round : SelectRound)
    (turns : List SelectPlayerTurn) (rollsByTurnId : Nat → Option (List SelectRoll))
    (rm : RoundModel) (hrm : rm = mapRound now round turns rollsByTurnId)
    (hdice : ∀ t ∈ turns, ∀ r ∈ (rollsByTurnId t.id).getD [], r.dice.length = 3) :
    rm.currentPenaltySips
        = 1 + (rm.turns.map (fun t =>
            if t.specialRollType = SpecialRollType.three_of_a_kind
            then specSips (lastRollFace t) else 0)).sum ∧
    (∀ t ∈ rm.turns, t.specialRollType = SpecialRollType.three_of_a_kind →
      ∃ lastRoll, t.rolls.getLast? = some lastRoll ∧ lastRoll.dice ≠ [] ∧
        ∀ die ∈ lastRoll.dice, die.value = lastRollFace t) ∧
    (turns = [] → rm.currentPenaltySips = 1) ∧
    rm.finalPenaltySips = (if turns.length = round.playerOrder.length
        then Option.some rm.currentPenaltySips else Option.none) := by
  subst hrm
  refine ⟨?_, ?_, ?_, ?_⟩
  · rw [show (mapRound now round turns rollsByTurnId).currentPenaltySips
        = calculatePenaltyFromTurns ((mapRound now round turns rollsByTurnId).turns) from rfl,
      calculatePenaltyFromTurns_eq_sum]
    have hpt : ∀ t : PlayerTurnModel,
        (if t.specialRollType = SpecialRollType.three_of_a_kind
          then getThreeOfAKindSips (lastRollFace t) else 0)
          = (if t.specialRollType = SpecialRollType.three_of_a_kind
          then specSips (lastRollFace t) else 0) := by
      intro t
      by_cases ht : t.specialRollType = SpecialRollType.three_of_a_kind <;>
        simp [ht, specSips_eq_getThreeOfAKindSips]
    congr 1
    exact congrArg List.sum (List.map_congr_left (fun t _ => hpt t))
  · intro t ht h3oak
    rw [mapRound_turns] at ht
    obtain ⟨a, ha, haeq⟩ := List.mem_map.mp ht
    obtain ⟨r, hr, hrl, hrd⟩ := mapPlayerTurn_specialRollType_getLast now a
      ((rollsByTurnId a.id).getD [])
      (by rw [haeq, h3oak]; intro hcon; exact SpecialRollType.noConfusion hcon)
    have hdlen : r.dice.length = 3 :=
      hdice a ha r (List.mem_of_getLast?_eq_some hr)
    have hdet : detectSpecialRoll r.dice = SpecialRollType.three_of_a_kind := by
      rw [hrd, haeq, h3oak]
    obtain ⟨v, hv⟩ := all_values_eq_of_three_of_a_kind hdlen hdet
    have hlast : t.rolls.getLast? = some (mapRoll r) := by rw [← haeq]; exact hrl
    have hne : (mapRoll r).dice ≠ [] := by
      intro hcon
      have : r.dice = [] := hcon
      rw [this] at hdlen
      simp at hdlen
    refine ⟨mapRoll r, hlast, hne, ?_⟩
    intro die hdie
    have hface : lastRollFace t = v := by
      rw [lastRollFace, hlast]
      rcases hd0 : (mapRoll r).dice[0]? with _ | d0
      · exfalso
        have hlen0 : (mapRoll r).dice.length ≤ 0 := List.getElem?_eq_none_iff.mp hd0
        have hlen0' : r.dice.length ≤ 0 := hlen0
        omega
      · have hd0mem : d0 ∈ (mapRoll r).dice := List.getElem?_mem hd0
        have hv0 : d0.value = v := hv d0 hd0mem
        simp [hd0, hv0]
    rw [hface]
    exact hv die hdie
  · intro hturns
    subst hturns
    rfl
  · by_cases hcomp : turns.length = round.playerOrder.length <;>
      simp [mapRound, isRoundCompleteFromData, hcomp]

/-- Concrete one-participant round fixture used by witnesses. -/
def sampleRound : SelectRound := ⟨1, 1, 1, [7], 4⟩

/-- Concrete single-turn fixture (participant 7, turn order 1). -/
def sampleTurns3oak : List SelectPlayerTurn := [⟨1, 1, 7, 1⟩]

/-- Concrete roll lookup: the single turn rolled [3,3,3] (three of a kind). -/
def sampleRolls3oak : Nat → Option (List SelectRoll) :=
  fun _ => some [⟨1, 1, [⟨3, false⟩, ⟨3, false⟩, ⟨3, false⟩], 5⟩]

/-- Witness for C4 at a completed one-turn round whose turn rolled [3,3,3]. -/
theorem mapRound_penaltySips_witness :
    (mapRound 0 sampleRound sampleTurns3oak sampleRolls3oak).currentPenaltySips
        = 1 + ((mapRound 0 sampleRound sampleTurns3oak sampleRolls3oak).turns.map (fun t =>
            if t.specialRollType = SpecialRollType.three_of_a_kind
            then specSips (lastRollFace t) else 0)).sum ∧
    (∀ t ∈ (mapRound 0 sampleRound sampleTurns3oak sampleRolls3oak).turns,
      t.specialRollType = SpecialRollType.three_of_a_kind →
      ∃ lastRoll, t.rolls.getLast? = some lastRoll ∧ lastRoll.dice ≠ [] ∧
        ∀ die ∈ lastRoll.dice, die.value = lastRollFace t) ∧
    (sampleTurns3oak = [] →
      (mapRound 0 sampleRound sampleTurns3oak sampleRolls3oak).currentPenaltySips = 1) ∧
    (mapRound 0 sampleRound sampleTurns3oak sampleRolls3oak).finalPenaltySips
        = (if sampleTurns3oak.length = sampleRound.playerOrder.length
          then Option.some
            (mapRound 0 sampleRound sampleTurns3oak sampleRolls3oak).currentPenaltySips
          else Option.none) :=
  mapRound_penaltySips 0 sampleRound sampleTurns3oak sampleRolls3oak _ rfl (by decide)

theorem isSuperStairsValid_iff (dice : Dice) (b : Bool) (h3 : dice.length = 3) :
    isSuperStairsValid dice b = true ↔ (sortedValues dice = [4, 5, 6] ∧ b = true) := by
  obtain ⟨x, y, z, hsv⟩ := sortedValues_three h3
  rw [isSuperStairsValid, hsv]
  simp only [List.getElem?_cons_zero, List.getElem?_cons_succ, Option.some.injEq,
    Bool.and_eq_true, decide_eq_true_eq, List.cons.injEq, and_true]

theorem wasPreviousTurnStairs_false_of_le_one (now : Nat)
    (turns : List SelectPlayerTurn) (rb : Nat → List SelectRoll) (k : Nat)
    (hk : k ≤ 1) : wasPreviousTurnStairs now turns rb k = false := by
  rw [wasPreviousTurnStairs, if_pos hk]

theorem wasPreviousTurnStairs_iff (now : Nat) (turns : List SelectPlayerTurn)
    (rb : Nat → List SelectRoll) (k : Nat) :
    wasPreviousTurnStairs now turns rb k = true ↔
      2 ≤ k ∧ ∃ prev, turns.find? (fun t => t.turnOrder = k - 1) = some prev ∧
        (mapPlayerTurn now prev (rb prev.id)).specialRollType = SpecialRollType.stairs := by
  rw [wasPreviousTurnStairs]
  by_cases hk : k ≤ 1
  · rw [if_pos hk]
    simp only [Bool.false_eq_true, false_iff, not_and]
    intro h2
    exact absurd h2 (by omega)
  · rw [if_neg hk]
    have h2 : 2 ≤ k := by omega
    rcases hf : turns.find? (fun t => t.turnOrder = k - 1) with _ | prev <;>
      simp only [hf]
    · simp [h2]
    · simp [h2, decide_eq_true_eq]

/-- C5: `isSuperStairsValid` is true iff the current dice sort to [4,5,6] and
the previous turn (the one whose turnOrder is exactly one less) was
classified stairs; `wasPreviousTurnStairs` refuses when turnOrder ≤ 1, so a
[4,5,6] roll on the first turn of a round, or after any category other than
stairs, is not a valid super-stairs. -/
theorem isSuperStairsValid_context :
    (∀ (dice : Dice) (b : Bool), dice.length = 3 →
      (isSuperStairsValid dice b = true ↔ (sortedValues dice = [4, 5, 6] ∧ b = true))) ∧
    (∀ (now : Nat) (turns : List SelectPlayerTurn) (rb : Nat → List SelectRoll) (k : Nat),
      k ≤ 1 → wasPreviousTurnStairs now turns rb k = false) ∧
    (∀ (now : Nat) (turns : List SelectPlayerTurn) (rb : Nat → List SelectRoll) (k : Nat)
      (dice : Dice), dice.length = 3 →
      (isSuperStairsValid dice (wasPreviousTurnStairs now turns rb k) = true ↔
        (sortedValues dice = [4, 5, 6] ∧ 2 ≤ k ∧
          ∃ prev, turns.find? (fun t => t.turnOrder = k - 1) = some prev ∧
            (mapPlayerTurn now prev (rb prev.id)).specialRollType
              = SpecialRollType.stairs))) := by
  refine ⟨isSuperStairsValid_iff, wasPreviousTurnStairs_false_of_le_one, ?_⟩
  intro now turns rb k dice h3
  rw [isSuperStairsValid_iff dice _ h3, wasPreviousTurnStairs_iff]

/-- Witness for C5: a [4,5,6] roll after a first-turn [1,2,3] stairs
(turn order 2) is a valid super-stairs; on the first turn it is not. -/
theorem isSuperStairsValid_context_witness :
    (isSuperStairsValid [⟨4, false⟩, ⟨5, false⟩, ⟨6, false⟩] true = true ↔
      (sortedValues [⟨4, false⟩, ⟨5, false⟩, ⟨6, false⟩] = [4, 5, 6] ∧ true = true)) ∧
    wasPreviousTurnStairs 0 [⟨1, 1, 7, 1⟩]
      (fun _ => [⟨1, 1, [⟨1, false⟩, ⟨2, false⟩, ⟨3, false⟩], 5⟩]) 1 = false ∧
    (isSuperStairsValid [⟨4, false⟩, ⟨5, false⟩, ⟨6, false⟩]
        (wasPreviousTurnStairs 0 [⟨1, 1, 7, 1⟩]
          (fun _ => [⟨1, 1, [⟨1, false⟩, ⟨2, false⟩, ⟨3, false⟩], 5⟩]) 2) = true ↔
      (sortedValues [⟨4, false⟩, ⟨5, false⟩, ⟨6, false⟩] = [4, 5, 6] ∧ 2 ≤ 2 ∧
        ∃ prev, ([⟨1, 1, 7, 1⟩] : List SelectPlayerTurn).find?
            (fun t => t.turnOrder = 2 - 1) = some prev ∧
          (mapPlayerTurn 0 prev
              ((fun _ => [⟨1, 1, [⟨1, false⟩, ⟨2, false⟩, ⟨3, false⟩], 5⟩]) prev.id)).specialRollType
            = SpecialRollType.stairs)) :=
  ⟨isSuperStairsValid_context.1 [⟨4, false⟩, ⟨5, false⟩, ⟨6, false⟩] true (by decide),
   isSuperStairsValid_context.2.1 0 [⟨1, 1, 7, 1⟩]
     (fun _ => [⟨1, 1, [⟨1, false⟩, ⟨2, false⟩, ⟨3, false⟩], 5⟩]) 1 (by decide),
   isSuperStairsValid_context.2.2 0 [⟨1, 1, 7, 1⟩]
     (fun _ => [⟨1, 1, [⟨1, false⟩, ⟨2, false⟩, ⟨3, false⟩], 5⟩]) 2
     [⟨4, false⟩, ⟨5, false⟩, ⟨6, false⟩] (by decide)⟩

theorem cons_set_perm {α : Type} (c d : α) :
    ∀ (t : List α) (m : Nat), t[m]? = some c →
      List.Perm (c :: t.set m d) (d :: t)
  | [], m, h => by simp at h
  | y :: ys, 0, h => by
    have hy : y = c := by simpa using h
    rw [hy]
    exact List.Perm.swap d c ys
  | y :: ys, m + 1, h => by
    have h' : ys[m]? = some c := by simpa using h
    have step1 : List.Perm (c :: y :: ys.set m d) (y :: c :: ys.set m d) :=
      List.Perm.swap y c (ys.set m d)
    have step2 : List.Perm (y :: c :: ys.set m d) (y :: d :: ys) :=
      List.Perm.cons y (cons_set_perm c d ys m h')
    have step3 : List.Perm (y :: d :: ys) (d :: y :: ys) := List.Perm.swap d y ys
    exact (step1.trans step2).trans step3

theorem set_set_perm {α : Type} :
    ∀ (l : List α) (i j : Nat) (a b : α), l[i]? = some a → l[j]? = some b →
      List.Perm ((l.set i b).set j a) l
  | [], _, _, _, _, hi, _ => by simp at hi
  | x :: xs, 0, 0, a, b, hi, hj => by
    have hx : x = a := by simpa using hi
    rw [hx]
    simp
  | x :: xs, 0, m + 1, a, b, hi, hj => by
    have hx : x = a := by simpa using hi
    have hj' : xs[m]? = some b := by simpa using hj
    rw [hx]
    exact cons_set_perm b a xs m hj'
  | x :: xs, n + 1, 0, a, b, hi, hj => by
    have hx : x = b := by simpa using hj
    have hi' : xs[n]? = some a := by simpa using hi
    rw [hx]
    exact cons_set_perm a b xs n hi'
  | x :: xs, n + 1, m + 1, a, b, hi, hj => by
    have hi' : xs[n]? = some a := by simpa using hi
    have hj' : xs[m]? = some b := by simpa using hj
    exact List.Perm.cons x (set_set_perm xs n m a b hi' hj')

theorem listSwap_perm {α : Type} (l : List α) (i j : Nat) :
    List.Perm (listSwap l i j) l := by
  rw [listSwap]
  rcases hi : l[i]? with _ | a
  · exact List.Perm.refl l
  rcases hj : l[j]? with _ | b
  · exact List.Perm.refl l
  · exact set_set_perm l i j a b hi hj

theorem shuffleGo_perm {α : Type} (rand : Nat → Nat) :
    ∀ (n : Nat) (l : List α), List.Perm (shuffleGo rand n l) l
  | 0, l => List.Perm.refl l
  | n + 1, l =>
    (shuffleGo_perm rand n (listSwap l (n + 1) (rand (n + 1) % (n + 2)))).trans
      (listSwap_perm l (n + 1) (rand (n + 1) % (n + 2)))

theorem shuffleArray_perm {α : Type} (rand : Nat → Nat) (array : List α) :
    List.Perm (shuffleArray rand array) array :=
  shuffleGo_perm rand (array.length - 1) array

theorem filter_ne_eq_erase (s : Nat) :
    ∀ l : List Nat, l.count s = 1 → l.filter (fun id => id ≠ s) = l.erase s
  | [], h => by simp at h
  | x :: xs, h => by
    by_cases hx : x = s
    · subst hx
      have hc1 : (x :: xs).count x = xs.count x + 1 := List.count_cons_self x xs
      have hcount : xs.count x = 0 := by omega
      have hnot : x ∉ xs := List.count_eq_zero.mp hcount
      rw [List.erase_cons_head]
      simp only [List.filter_cons]
      rw [if_neg (by simp)]
      rw [List.filter_eq_self.mpr]
      intro a ha
      simp only [ne_eq, decide_eq_true_eq]
      intro hcon
      exact hnot (hcon ▸ ha)
    · have hcount : xs.count s = 1 := by
        rwa [List.count_cons_of_ne (fun hc => hx hc.symm)] at h
      rw [List.erase_cons_tail (by simp [hx])]
      simp only [List.filter_cons]
      rw [if_pos (by simp [hx])]
      rw [filter_ne_eq_erase s xs hcount]

/-- C6: with a duplicate-free participant list containing the starting
participant exactly once, `createPlayerOrder` with `shuffleOrder = false`
returns the starting participant followed by the remaining participants in
their original order (so `createPlayerOrder(5, [1,2,3,5], false) =
[5,1,2,3]`), and for either value of `shuffleOrder` (with the shuffle's
random draws an explicit input) the output is a permutation of the input
list with the starting participant at position 0. -/
theorem createPlayerOrder_spec :
    (∀ rand : Nat → Nat, createPlayerOrder rand 5 [1, 2, 3, 5] false = [5, 1, 2, 3]) ∧
    (∀ (rand : Nat → Nat) (s : Nat) (all : List Nat), all.Nodup → all.count s = 1 →
      createPlayerOrder rand s all false = s :: all.erase s) ∧
    (∀ (rand : Nat → Nat) (s : Nat) (all : List Nat) (shuffleOrder : Bool),
      all.Nodup → all.count s = 1 →
      List.Perm (createPlayerOrder rand s all shuffleOrder) all ∧
      (createPlayerOrder rand s all shuffleOrder)[0]? = some s) := by
  have horder : ∀ (rand : Nat → Nat) (s : Nat) (all : List Nat), all.count s = 1 →
      createPlayerOrder rand s all false = s :: all.erase s := by
    intro rand s all hcount
    show s :: all.filter (fun id => id ≠ s) = s :: all.erase s
    rw [filter_ne_eq_erase s all hcount]
  refine ⟨?_, fun rand s all _ h => horder rand s all h, ?_⟩
  · intro rand
    rfl
  · intro rand s all shuffleOrder _ hcount
    refine ⟨?_, List.getElem?_cons_zero⟩
    have hmem : s ∈ all := by
      rw [← List.count_pos_iff]
      omega
    have hrem : List.Perm
        (if shuffleOrder then shuffleArray rand (all.filter (fun id => id ≠ s))
          else all.filter (fun id => id ≠ s))
        (all.filter (fun id => id ≠ s)) := by
      by_cases hso : shuffleOrder = true
      · rw [if_pos hso]
        exact shuffleArray_perm rand _
      · rw [if_neg hso]
    have h1 : List.Perm (createPlayerOrder rand s all shuffleOrder)
        (s :: all.filter (fun id => id ≠ s)) := List.Perm.cons s hrem
    have h2 : s :: all.filter (fun id => id ≠ s) = s :: all.erase s := by
      rw [filter_ne_eq_erase s all hcount]
    exact (h2 ▸ h1).trans (List.perm_cons_erase hmem).symm

/-- Witness for C6: the spec's own example `[1,2,3,5]` with starting
participant 5, unshuffled and shuffled. -/
theorem createPlayerOrder_spec_witness :
    createPlayerOrder (fun i => i + 3) 5 [1, 2, 3, 5] false = 5 :: ([1, 2, 3, 5].erase 5) ∧
    List.Perm (createPlayerOrder (fun i => i + 3) 5 [1, 2, 3, 5] true) [1, 2, 3, 5] ∧
    (createPlayerOrder (fun i => i + 3) 5 [1, 2, 3, 5] true)[0]? = some 5 :=
  ⟨createPlayerOrder_spec.2.1 (fun i => i + 3) 5 [1, 2, 3, 5] (by decide) (by decide),
   (createPlayerOrder_spec.2.2 (fun i => i + 3) 5 [1, 2, 3, 5] true (by decide) (by decide)).1,
   (createPlayerOrder_spec.2.2 (fun i => i + 3) 5 [1, 2, 3, 5] true (by decide) (by decide)).2⟩

end ThreeDice
